import Mathlib

/-!
Verification development for the InvestmentTracker repository.

The metrics engine (`calculate_metrics` in `utils.py`) and the heuristic
insight generator (`generate_local_insights` in `local_insights.py`) are
embedded shallowly:

* a pandas dataframe row becomes a `Transaction` record; the table is the
  `List Transaction` in dataframe order;
* currency amounts are exact rationals (the Python code uses floats with no
  precision requirement beyond "ordinary floating-point currency arithmetic");
* timestamps become `Date` records ordered lexicographically, with
  `Date.toDays` the proleptic Gregorian day number (the `days_from_civil`
  algorithm), matching `(last_date - first_date).days`;
* wall-clock `datetime.now()` is passed in explicitly as a `now : Date`
  parameter;
* arithmetic domain errors (a division whose denominator is zero, a
  logarithm of a non-positive number) are modelled by returning `none`;
  all other paths return `some` of the produced insight blocks.
-/

/-- A calendar date (year, month, day), as carried by the `Date` column. -/
structure Date where
  y : ℕ
  m : ℕ
  d : ℕ
deriving DecidableEq

/-- Lexicographic order on dates: this is how pandas timestamps compare. -/
def Date.le (a b : Date) : Prop :=
  a.y < b.y ∨ (a.y = b.y ∧ (a.m < b.m ∨ (a.m = b.m ∧ a.d ≤ b.d)))

instance : LinearOrder Date where
  le := Date.le
  le_refl a := Or.inr ⟨rfl, Or.inr ⟨rfl, le_refl _⟩⟩
  le_trans a b c hab hbc := by
    cases a; cases b; cases c
    simp only [Date.le] at *
    omega
  le_antisymm a b hab hba := by
    cases a; cases b
    simp only [Date.le] at *
    simp only [Date.mk.injEq]
    omega
  le_total a b := by
    cases a; cases b
    simp only [Date.le]
    omega
  decidableLE a b := inferInstanceAs (Decidable (_ ∨ _))

theorem Date.le_iff {a b : Date} :
    a ≤ b ↔ a.y < b.y ∨ (a.y = b.y ∧ (a.m < b.m ∨ (a.m = b.m ∧ a.d ≤ b.d))) :=
  Iff.rfl

/-- A date is well formed when month and day lie in calendar range (the
upstream loader only produces parseable dates). -/
def Date.Valid (dt : Date) : Prop :=
  1 ≤ dt.m ∧ dt.m ≤ 12 ∧ 1 ≤ dt.d ∧ dt.d ≤ 31

instance : DecidablePred Date.Valid := fun dt =>
  inferInstanceAs (Decidable (1 ≤ dt.m ∧ dt.m ≤ 12 ∧ 1 ≤ dt.d ∧ dt.d ≤ 31))

/-- Day number of a date in the proleptic Gregorian calendar
(`days_from_civil`, epoch 1970-01-01); differences of these values are the
`.days` of a pandas timestamp difference. -/
def Date.toDays (dt : Date) : ℤ :=
  let y' : ℕ := if dt.m ≤ 2 then dt.y - 1 else dt.y
  let era : ℕ := y' / 400
  let yoe : ℕ := y' - era * 400
  let mp : ℕ := if 2 < dt.m then dt.m - 3 else dt.m + 9
  let doy : ℕ := (153 * mp + 2) / 5 + dt.d - 1
  let doe : ℕ := yoe * 365 + yoe / 4 - yoe / 100 + doy
  (era : ℤ) * 146097 + (doe : ℤ) - 719468

/-- The whole-month difference formula
`(end.year - start.year) * 12 + (end.month - start.month)` that appears both
in `calculate_metrics` and in the growth-trend insight. -/
def monthsBetween (a b : Date) : ℤ :=
  ((b.y : ℤ) - (a.y : ℤ)) * 12 + ((b.m : ℤ) - (a.m : ℤ))

/-- One row of the transaction table. -/
structure Transaction where
  date : Date
  investment : ℚ
  totalBalance : ℚ
  accountType : Option String
  notes : String
deriving DecidableEq

/-- The five derived scalars returned by `calculate_metrics`. -/
structure Metrics where
  total_invested : ℚ
  current_balance : ℚ
  total_earnings : ℚ
  avg_monthly_earnings : ℚ
  months_invested : ℤ
deriving DecidableEq

/-- `df['Date'].min()` on a nonempty column: fold of `min` over the dates
(the empty case never arises below; it returns a junk date). -/
def datesMin : List Date → Date
  | [] => ⟨0, 0, 0⟩
  | d :: ds => ds.foldl min d

/-- `df['Date'].max()` on a nonempty column. -/
def datesMax : List Date → Date
  | [] => ⟨0, 0, 0⟩
  | d :: ds => ds.foldl max d

/-- Shallow embedding of `calculate_metrics` (`utils.py`): sums the
`Investment` column, takes `Total Balance` of the positionally last row
(`iloc[-1]`, 0 for an empty table), subtracts for earnings, computes the
whole-month span between the earliest and latest `Date`, and divides
earnings by `max(months_invested, 1)`. -/
def calculate_metrics (df : List Transaction) : Metrics :=
  let total_invested : ℚ := (df.map Transaction.investment).sum
  let current_balance : ℚ := ((df.getLast?).map Transaction.totalBalance).getD 0
  let total_earnings : ℚ := current_balance - total_invested
  if df.isEmpty then
    ⟨total_invested, current_balance, total_earnings, 0, 0⟩
  else
    let start_date := datesMin (df.map Transaction.date)
    let end_date := datesMax (df.map Transaction.date)
    let months_invested := monthsBetween start_date end_date
    ⟨total_invested, current_balance, total_earnings,
      total_earnings / ((max months_invested 1 : ℤ) : ℚ), months_invested⟩

/-- `df.sort_values('Date')`: a stable sort of the rows by `Date`
(pandas leaves tie order unspecified; the stable insertion sort fixes one
deterministic choice). -/
def sortByDate (df : List Transaction) : List Transaction :=
  List.insertionSort (fun a b => a.date ≤ b.date) df

/-- Tier of the overall-performance insight (always emitted). -/
inductive PerfTier
  | excellent
  | good
  | positive
  | flat
deriving DecidableEq

/-- Tier of the growth-trend insight. -/
inductive GrowthTier
  | impressive
  | solid
  | steady
  | declining
deriving DecidableEq

/-- Tier of the account-distribution insight. -/
inductive DistTier
  | heavy
  | significant
  | balanced
deriving DecidableEq

/-- Tier of the current-month performance insight. -/
inductive MonthTier
  | outstanding
  | strong
  | positive
  | flat
deriving DecidableEq

/-- One emitted insight block, as its tier plus the numeric values that get
templated into the text. -/
inductive Insight
  | performance (tier : PerfTier) (roi annualized : ℚ)
  | growth (tier : GrowthTier) (rate : ℝ)
  | distribution (tier : DistTier) (account : String) (pct : ℚ)
  | projection (years : ℝ)
  | monthPerf (tier : MonthTier) (growth : ℚ) (month : ℕ)

/-- Tier thresholds of insight 1: `>15` excellent, `>8` good, `>0` positive. -/
def perfTier (roi : ℚ) : PerfTier :=
  if 15 < roi then .excellent
  else if 8 < roi then .good
  else if 0 < roi then .positive
  else .flat

/-- Insight 1 (overall performance): unconditional; both ratios are guarded
with `if total_invested > 0` / `if months_invested > 0` in the source. -/
def perfBlock (metrics : Metrics) : List Insight :=
  let roi_percent : ℚ :=
    if 0 < metrics.total_invested then
      metrics.total_earnings / metrics.total_invested * 100
    else 0
  let annualized_roi : ℚ :=
    if 0 < metrics.months_invested then
      roi_percent / (metrics.months_invested : ℚ) * 12
    else 0
  [.performance (perfTier roi_percent) roi_percent annualized_roi]

/-- Tier thresholds of insight 2: `>3` impressive, `>1` solid, `>0` steady. -/
noncomputable def growthTier (rate : ℝ) : GrowthTier :=
  if 3 < rate then .impressive
  else if 1 < rate then .solid
  else if 0 < rate then .steady
  else .declining

/-- `((last_balance / first_balance) ** (1/months_between) - 1) * 100`. -/
noncomputable def growthRate (first_balance last_balance : ℚ) (months_between : ℤ) : ℝ :=
  (((last_balance : ℝ) / (first_balance : ℝ)) ^ ((1 : ℝ) / (months_between : ℝ)) - 1) * 100

/-- Insight 2 (growth trend): gated on `len(df) >= 3`, a date span of at
least 30 days, and a positive whole-month difference; divides the last
balance of the date-sorted table by the first, which is a division by zero
(`none`) when that first balance is 0. -/
noncomputable def growthBlock (df : List Transaction) : Option (List Insight) :=
  if 3 ≤ df.length then
    let sorted_df := sortByDate df
    match sorted_df.head?, sorted_df.getLast? with
    | some first_row, some last_row =>
      if 30 ≤ last_row.date.toDays - first_row.date.toDays then
        let months_between := monthsBetween first_row.date last_row.date
        if 0 < months_between then
          if first_row.totalBalance = 0 then none
          else
            let rate := growthRate first_row.totalBalance last_row.totalBalance months_between
            some [.growth (growthTier rate) rate]
        else some []
      else some []
    | _, _ => some []
  else some []

/-- Adds `v` to the entry of key `t` in an association list (Python
`dict[key] += v` on a key already present). -/
def bumpKey (t : String) (v : ℚ) : List (String × ℚ) → List (String × ℚ)
  | [] => []
  | (s, w) :: rest => if s = t then (s, w + v) :: rest else (s, w) :: bumpKey t v rest

/-- The `account_distribution` dict: one pass over the rows in table order;
every row whose `Account Type` is present and not the sentinel `"-"`
creates its key (initialised to 0), and only rows with `Investment > 0`
add to the key's sum. Insertion order is kept, as in a Python dict. -/
def accountDistribution (df : List Transaction) : List (String × ℚ) :=
  df.foldl
    (fun acc r =>
      match r.accountType with
      | none => acc
      | some t =>
        if t = "-" then acc
        else
          let acc' := if acc.any (fun p => p.1 = t) then acc else acc ++ [(t, 0)]
          if 0 < r.investment then bumpKey t r.investment acc' else acc')
    []

/-- Python `max(items, key=lambda x: x[1])`: the first entry with maximal
second component (a later entry replaces the current best only when it is
strictly larger, as in CPython). `none` only on the empty list, where
Python would raise. -/
def maxBySnd : List (String × ℚ) → Option (String × ℚ)
  | [] => none
  | p :: rest => some (rest.foldl (fun b q => if b.2 < q.2 then q else b) p)

/-- Tier thresholds of insight 3: `>80` heavily concentrated, `>60`
significant allocation. -/
def distTier (pct : ℚ) : DistTier :=
  if 80 < pct then .heavy
  else if 60 < pct then .significant
  else .balanced

/-- Insight 3 (account distribution): emitted exactly when more than one
distinct account type appears in `account_distribution`; the share of the
maximal account is guarded with `if total_invested > 0`. -/
def distBlock (df : List Transaction) (total_invested : ℚ) : List Insight :=
  let account_distribution := accountDistribution df
  if 1 < account_distribution.length then
    match maxBySnd account_distribution with
    | some max_account =>
      let percentage : ℚ :=
        if 0 < total_invested then max_account.2 / total_invested * 100 else 0
      [.distribution (distTier percentage) max_account.1 percentage]
    | none => []
  else []

/-- Insight 4 (doubling-time projection): gated on
`months_invested > 0 and avg_monthly_earnings > 0`; then computes
`log(2) / log(1 + avg_monthly_earnings / current_balance) / 12`.
A zero `current_balance` is a division by zero; a non-positive log argument
is a `math.log` domain error; a log argument of exactly 1 makes the outer
division divide by zero. Each is modelled as `none`. -/
noncomputable def projBlock (metrics : Metrics) : Option (List Insight) :=
  if 0 < metrics.months_invested ∧ 0 < metrics.avg_monthly_earnings then
    if metrics.current_balance = 0 then none
    else
      let arg : ℚ := 1 + metrics.avg_monthly_earnings / metrics.current_balance
      if arg ≤ 0 then none
      else if arg = 1 then none
      else
        let years_to_double := Real.log 2 / Real.log (arg : ℝ) * (1 / 12)
        some [.projection years_to_double]
  else some []

/-- Tier thresholds of insight 5: `>5` outstanding, `>2` strong, `>0`
positive growth for the current month. -/
def monthTier (growth : ℚ) : MonthTier :=
  if 5 < growth then .outstanding
  else if 2 < growth then .strong
  else if 0 < growth then .positive
  else .flat

/-- Insight 5 (current month vs previous month): filters rows to the
wall-clock month and to the month before it (both filters keep table
order, and `iloc[-1]` takes the positionally last match); dividing by a
zero previous balance is modelled as `none`. -/
def monthBlock (df : List Transaction) (now : Date) : Option (List Insight) :=
  let current_month_data :=
    df.filter (fun r => r.date.m = now.m ∧ r.date.y = now.y)
  if current_month_data.isEmpty then some []
  else
    let previous_month := if 1 < now.m then now.m - 1 else 12
    let previous_year := if 1 < now.m then now.y else now.y - 1
    let previous_month_data :=
      df.filter (fun r => r.date.m = previous_month ∧ r.date.y = previous_year)
    if previous_month_data.isEmpty then some []
    else
      match previous_month_data.getLast?, current_month_data.getLast? with
      | some prev_row, some cur_row =>
        if prev_row.totalBalance = 0 then none
        else
          let month_growth : ℚ :=
            (cur_row.totalBalance - prev_row.totalBalance) / prev_row.totalBalance * 100
          some [.monthPerf (monthTier month_growth) month_growth now.m]
      | _, _ => some []

/-- Shallow embedding of `generate_local_insights` (`local_insights.py`):
the five insight blocks evaluated in source order and concatenated;
`datetime.now()` is passed in as `now`. The result is `none` exactly when
one of the blocks hits an arithmetic domain error. -/
noncomputable def generate_local_insights (df : List Transaction) (metrics : Metrics)
    (now : Date) : Option (List Insight) := do
  let growth ← growthBlock df
  let proj ← projBlock metrics
  let monthly ← monthBlock df now
  some (perfBlock metrics ++ growth ++ distBlock df metrics.total_invested ++ proj ++ monthly)

/-- Spec-side comparator for the account-concentration gate: the mapping
built only from rows whose Account Type is a real label AND whose
Investment is strictly positive, following the spec's words ("only rows
where Account Type is a real label, not the sentinel, and only where
Investment > 0"). -/
def accountDistributionSpec (df : List Transaction) : List (String × ℚ) :=
  df.foldl
    (fun acc r =>
      match r.accountType with
      | none => acc
      | some t =>
        if t = "-" then acc
        else if 0 < r.investment then
          if acc.any (fun p => p.1 = t) then bumpKey t r.investment acc
          else acc ++ [(t, r.investment)]
        else acc)
    []

/-- Row (2024-01-01, 1000, 1000, "TFSA", "") of concrete scenario A. -/
def rowJan : Transaction := ⟨⟨2024, 1, 1⟩, 1000, 1000, some "TFSA", ""⟩

/-- Row (2024-06-01, 500, 1800, "TFSA", "") of concrete scenario A. -/
def rowJun : Transaction := ⟨⟨2024, 6, 1⟩, 500, 1800, some "TFSA", ""⟩

/-- Concrete scenario A of the spec, in chronological order. -/
def scenarioA : List Transaction := [rowJan, rowJun]

/-- A fixed generation date for the wall-clock-dependent insight. -/
def nowDate : Date := ⟨2025, 10, 12⟩

/-- A data-model-conforming table (valid dates, nonnegative investments and
balances) whose chronologically first Total Balance is 0 while the
growth-trend gates all hold. -/
def zeroBalTable : List Transaction :=
  [⟨⟨2024, 1, 1⟩, 0, 0, some "-", ""⟩,
   ⟨⟨2024, 2, 15⟩, 0, 0, some "-", ""⟩,
   ⟨⟨2024, 3, 1⟩, 100, 100, some "-", ""⟩]

/-- Concrete scenario B of the spec: a single row (2024-03-01, 200, 200). -/
def singleRowTable : List Transaction :=
  [⟨⟨2024, 3, 1⟩, 200, 200, some "-", ""⟩]

/-- A table with two real account-type labels where only one label has any
positive investment (the other appears only on a zero-investment row). -/
def mixedTypesTable : List Transaction :=
  [⟨⟨2024, 1, 1⟩, 0, 0, some "TFSA", ""⟩,
   ⟨⟨2024, 2, 1⟩, 100, 100, some "RSP", ""⟩]

/-- A three-row table realising concrete scenario D: sorted first balance
1000, last balance 1100, whole-month difference 10, span over 30 days. -/
def growthTable : List Transaction :=
  [⟨⟨2024, 1, 15⟩, 500, 1000, some "-", ""⟩,
   ⟨⟨2024, 5, 1⟩, 400, 1050, some "-", ""⟩,
   ⟨⟨2024, 11, 15⟩, 200, 1100, some "-", ""⟩]

/-- A table with positive average monthly earnings, for the projection
gate. -/
def earningTable : List Transaction :=
  [⟨⟨2024, 1, 1⟩, 100, 100, some "-", ""⟩,
   ⟨⟨2024, 3, 1⟩, 0, 300, some "-", ""⟩]

instance : Std.Commutative (min : Date → Date → Date) := ⟨min_comm⟩

instance : Std.Associative (min : Date → Date → Date) := ⟨min_assoc⟩

instance : Std.Commutative (max : Date → Date → Date) := ⟨max_comm⟩

instance : Std.Associative (max : Date → Date → Date) := ⟨max_assoc⟩

theorem datesMin_perm {l l' : List Date} (h : l.Perm l') : datesMin l = datesMin l' := by
  induction h with
  | nil => rfl
  | cons x h ih => exact h.foldl_eq x
  | swap x y l => simp [datesMin, min_comm]
  | trans h1 h2 ih1 ih2 => exact ih1.trans ih2

theorem datesMax_perm {l l' : List Date} (h : l.Perm l') : datesMax l = datesMax l' := by
  induction h with
  | nil => rfl
  | cons x h ih => exact h.foldl_eq x
  | swap x y l => simp [datesMax, max_comm]
  | trans h1 h2 ih1 ih2 => exact ih1.trans ih2

theorem foldl_min_choice : ∀ (ds : List Date) (d : Date), ds.foldl min d = d ∨ ds.foldl min d ∈ ds
  | [], _ => Or.inl rfl
  | x :: ds, d => by
    rcases foldl_min_choice ds (min d x) with h | h
    · rcases min_choice d x with h' | h'
      · exact Or.inl (by rw [List.foldl_cons, h, h'])
      · exact Or.inr (by rw [List.foldl_cons, h, h']; exact List.mem_cons_self x ds)
    · exact Or.inr (List.mem_cons_of_mem x h)

theorem foldl_max_choice : ∀ (ds : List Date) (d : Date), ds.foldl max d = d ∨ ds.foldl max d ∈ ds
  | [], _ => Or.inl rfl
  | x :: ds, d => by
    rcases foldl_max_choice ds (max d x) with h | h
    · rcases max_choice d x with h' | h'
      · exact Or.inl (by rw [List.foldl_cons, h, h'])
      · exact Or.inr (by rw [List.foldl_cons, h, h']; exact List.mem_cons_self x ds)
    · exact Or.inr (List.mem_cons_of_mem x h)

theorem foldl_min_le_init : ∀ (ds : List Date) (d : Date), ds.foldl min d ≤ d
  | [], d => le_refl d
  | x :: ds, d => (foldl_min_le_init ds (min d x)).trans (min_le_left d x)

theorem le_foldl_max_init : ∀ (ds : List Date) (d : Date), d ≤ ds.foldl max d
  | [], d => le_refl d
  | x :: ds, d => (le_max_left d x).trans (le_foldl_max_init ds (max d x))

theorem foldl_min_le_mem : ∀ {x : Date} (ds : List Date) (d : Date), x ∈ ds → ds.foldl min d ≤ x
  | x, a :: ds, d, h => by
    rcases List.mem_cons.mp h with h' | h'
    · subst h'
      exact (foldl_min_le_init ds (min d x)).trans (min_le_right d x)
    · exact foldl_min_le_mem ds (min d a) h'

theorem le_foldl_max_mem : ∀ {x : Date} (ds : List Date) (d : Date), x ∈ ds → x ≤ ds.foldl max d
  | x, a :: ds, d, h => by
    rcases List.mem_cons.mp h with h' | h'
    · subst h'
      exact (le_max_right d x).trans (le_foldl_max_init ds (max d x))
    · exact le_foldl_max_mem ds (max d a) h'

theorem datesMin_mem : ∀ {l : List Date}, l ≠ [] → datesMin l ∈ l
  | [], h => absurd rfl h
  | d :: ds, _ => by
    show ds.foldl min d ∈ d :: ds
    rcases foldl_min_choice ds d with h | h
    · rw [h]; exact List.mem_cons_self d ds
    · exact List.mem_cons_of_mem d h

theorem datesMax_mem : ∀ {l : List Date}, l ≠ [] → datesMax l ∈ l
  | [], h => absurd rfl h
  | d :: ds, _ => by
    show ds.foldl max d ∈ d :: ds
    rcases foldl_max_choice ds d with h | h
    · rw [h]; exact List.mem_cons_self d ds
    · exact List.mem_cons_of_mem d h

theorem datesMin_le_mem : ∀ {l : List Date} {x : Date}, x ∈ l → datesMin l ≤ x
  | d :: ds, x, h => by
    rcases List.mem_cons.mp h with h' | h'
    · exact h' ▸ foldl_min_le_init ds d
    · exact foldl_min_le_mem ds d h'

theorem le_datesMax_mem : ∀ {l : List Date} {x : Date}, x ∈ l → x ≤ datesMax l
  | d :: ds, x, h => by
    rcases List.mem_cons.mp h with h' | h'
    · exact h' ▸ le_foldl_max_init ds d
    · exact le_foldl_max_mem ds d h'

theorem cm_total_invested (df : List Transaction) :
    (calculate_metrics df).total_invested = (df.map Transaction.investment).sum := by
  simp only [calculate_metrics]
  split <;> rfl

theorem cm_current_balance (df : List Transaction) :
    (calculate_metrics df).current_balance =
      ((df.getLast?).map Transaction.totalBalance).getD 0 := by
  simp only [calculate_metrics]
  split <;> rfl

theorem cm_total_earnings (df : List Transaction) :
    (calculate_metrics df).total_earnings =
      (calculate_metrics df).current_balance - (calculate_metrics df).total_invested := by
  simp only [calculate_metrics]
  split <;> rfl

theorem cm_months (df : List Transaction) (h : df ≠ []) :
    (calculate_metrics df).months_invested =
      monthsBetween (datesMin (df.map Transaction.date)) (datesMax (df.map Transaction.date)) := by
  match df, h with
  | r :: rs, _ => rfl

theorem cm_months_nil : (calculate_metrics []).months_invested = 0 := rfl

theorem cm_avg (df : List Transaction) (h : df ≠ []) :
    (calculate_metrics df).avg_monthly_earnings =
      (calculate_metrics df).total_earnings /
        ((max (calculate_metrics df).months_invested 1 : ℤ) : ℚ) := by
  match df, h with
  | r :: rs, _ => rfl

theorem cm_avg_nil : (calculate_metrics []).avg_monthly_earnings = 0 := rfl

theorem metrics_eq_of_fields {m1 m2 : Metrics}
    (h1 : m1.total_invested = m2.total_invested)
    (h2 : m1.current_balance = m2.current_balance)
    (h3 : m1.total_earnings = m2.total_earnings)
    (h4 : m1.avg_monthly_earnings = m2.avg_monthly_earnings)
    (h5 : m1.months_invested = m2.months_invested) : m1 = m2 := by
  cases m1; cases m2; simp_all

theorem cm_avg_ite (df : List Transaction) :
    (calculate_metrics df).avg_monthly_earnings =
      if df.isEmpty then 0
      else (calculate_metrics df).total_earnings /
        ((max (calculate_metrics df).months_invested 1 : ℤ) : ℚ) := by
  cases df with
  | nil => rfl
  | cons r rs => simp [cm_avg _ (List.cons_ne_nil r rs)]

theorem calculate_metrics_ti_perm (df df' : List Transaction) (h : df.Perm df') :
    (calculate_metrics df).total_invested = (calculate_metrics df').total_invested := by
  rw [cm_total_invested, cm_total_invested]
  exact (h.map Transaction.investment).sum_eq

theorem calculate_metrics_months_perm (df df' : List Transaction) (h : df.Perm df') :
    (calculate_metrics df).months_invested = (calculate_metrics df').months_invested := by
  cases df with
  | nil =>
    have h2 : df' = [] := h.symm.eq_nil
    subst h2
    rfl
  | cons r rs =>
    have hne' : df' ≠ [] := by
      intro hh
      subst hh
      exact List.cons_ne_nil r rs h.eq_nil
    rw [cm_months _ (List.cons_ne_nil r rs), cm_months _ hne',
      datesMin_perm (h.map Transaction.date), datesMax_perm (h.map Transaction.date)]

/-- C1: `calculate_metrics` is not permutation-invariant as a whole: only
`total_invested` and `months_invested` are independent of the row order.
`current_balance` is the Total Balance of the positionally last row (not of
the maximum-Date row), so the full Metrics Record is preserved exactly when
a permutation keeps the final row; for the empty table `current_balance`
is 0. -/
theorem calculate_metrics_perm_invariants (df df' : List Transaction) (h : df.Perm df') :
    (calculate_metrics df).total_invested = (calculate_metrics df').total_invested ∧
    (calculate_metrics df).months_invested = (calculate_metrics df').months_invested ∧
    (df.getLast? = df'.getLast? → calculate_metrics df = calculate_metrics df') ∧
    (calculate_metrics []).current_balance = 0 := by
  have hti := calculate_metrics_ti_perm df df' h
  have hmo := calculate_metrics_months_perm df df' h
  refine ⟨hti, hmo, ?_, rfl⟩
  intro hlast
  have hcb : (calculate_metrics df).current_balance = (calculate_metrics df').current_balance := by
    rw [cm_current_balance, cm_current_balance, hlast]
  have hte : (calculate_metrics df).total_earnings = (calculate_metrics df').total_earnings := by
    rw [cm_total_earnings, cm_total_earnings, hcb, hti]
  have hemp : df.isEmpty = df'.isEmpty := by
    rcases df with _ | ⟨r, rs⟩
    · rw [h.symm.eq_nil]
    · have hne' : df' ≠ [] := by
        intro hh
        subst hh
        exact List.cons_ne_nil r rs h.eq_nil
      rcases df' with _ | ⟨r', rs'⟩
      · exact absurd rfl hne'
      · rfl
  have havg : (calculate_metrics df).avg_monthly_earnings =
      (calculate_metrics df').avg_monthly_earnings := by
    rw [cm_avg_ite, cm_avg_ite, hte, hmo, hemp]
  exact metrics_eq_of_fields hti hcb hte havg hmo

/-- C1 counterexample: reversing concrete scenario A is a permutation that
changes the Metrics Record (the engine takes `current_balance` from the
positionally last row instead of the maximum-Date row). -/
theorem calculate_metrics_order_counterexample :
    [rowJun, rowJan].Perm scenarioA ∧
    calculate_metrics [rowJun, rowJan] ≠ calculate_metrics scenarioA := by
  constructor
  · exact List.Perm.swap rowJan rowJun []
  · intro hc
    have h2 := congrArg Metrics.current_balance hc
    norm_num [calculate_metrics, scenarioA, rowJan, rowJun] at h2

theorem calculate_metrics_perm_invariants_witness :
    (calculate_metrics [rowJun, rowJan]).total_invested =
      (calculate_metrics scenarioA).total_invested ∧
    (calculate_metrics [rowJun, rowJan]).months_invested =
      (calculate_metrics scenarioA).months_invested ∧
    ([rowJun, rowJan].getLast? = scenarioA.getLast? →
      calculate_metrics [rowJun, rowJan] = calculate_metrics scenarioA) ∧
    (calculate_metrics []).current_balance = 0 :=
  calculate_metrics_perm_invariants [rowJun, rowJan] scenarioA (List.Perm.swap rowJan rowJun [])

theorem monthsBetween_nonneg {a b : Date} (ha : a.Valid) (hb : b.Valid) (hab : a ≤ b) :
    0 ≤ monthsBetween a b := by
  rcases a with ⟨y1, m1, d1⟩
  rcases b with ⟨y2, m2, d2⟩
  simp only [Date.le_iff] at hab
  simp only [Date.Valid] at ha hb
  simp only [monthsBetween]
  omega

/-- C5: for a nonempty table, `months_invested` is the whole-month
difference `(year_end - year_start) * 12 + (month_end - month_start)`
between the earliest and latest Date; it is nonnegative for every table
with valid dates, and a span from Jan 31 to Feb 1 of 2024 counts as
exactly 1 month. -/
theorem months_invested_formula (df : List Transaction) (hv : ∀ r ∈ df, r.date.Valid) :
    0 ≤ (calculate_metrics df).months_invested ∧
    (df ≠ [] →
      (calculate_metrics df).months_invested =
        monthsBetween (datesMin (df.map Transaction.date)) (datesMax (df.map Transaction.date)) ∧
      (datesMin (df.map Transaction.date) = ⟨2024, 1, 31⟩ →
        datesMax (df.map Transaction.date) = ⟨2024, 2, 1⟩ →
        (calculate_metrics df).months_invested = 1)) := by
  cases df with
  | nil => exact ⟨le_refl 0, fun hh => absurd rfl hh⟩
  | cons r rs =>
    have hne : (r :: rs) ≠ [] := List.cons_ne_nil r rs
    have hnel : ((r :: rs).map Transaction.date) ≠ [] := by simp
    have hminv : (datesMin ((r :: rs).map Transaction.date)).Valid := by
      rcases List.mem_map.mp (datesMin_mem hnel) with ⟨s, hs, hmap⟩
      exact hmap ▸ hv s hs
    have hmaxv : (datesMax ((r :: rs).map Transaction.date)).Valid := by
      rcases List.mem_map.mp (datesMax_mem hnel) with ⟨s, hs, hmap⟩
      exact hmap ▸ hv s hs
    have hle : datesMin ((r :: rs).map Transaction.date) ≤
        datesMax ((r :: rs).map Transaction.date) :=
      datesMin_le_mem (datesMax_mem hnel)
    refine ⟨?_, fun _ => ⟨cm_months _ hne, fun h1 h2 => ?_⟩⟩
    · rw [cm_months _ hne]
      exact monthsBetween_nonneg hminv hmaxv hle
    · rw [cm_months _ hne, h1, h2]
      decide

theorem months_invested_formula_witness :
    0 ≤ (calculate_metrics scenarioA).months_invested ∧
    (scenarioA ≠ [] →
      (calculate_metrics scenarioA).months_invested =
        monthsBetween (datesMin (scenarioA.map Transaction.date))
          (datesMax (scenarioA.map Transaction.date)) ∧
      (datesMin (scenarioA.map Transaction.date) = ⟨2024, 1, 31⟩ →
        datesMax (scenarioA.map Transaction.date) = ⟨2024, 2, 1⟩ →
        (calculate_metrics scenarioA).months_invested = 1)) :=
  months_invested_formula scenarioA (by decide)

/-- C6: `calculate_metrics` is a total function of the table (it returns a
plain `Metrics` record on every input, so it never fails), and the empty
table yields the all-zero Metrics Record. -/
theorem calculate_metrics_empty_all_zero :
    calculate_metrics [] = ⟨0, 0, 0, 0, 0⟩ := by
  norm_num [calculate_metrics]

/-- C7: `avg_monthly_earnings * max(months_invested, 1) = total_earnings`
holds exactly for every table, including the empty one. -/
theorem avg_monthly_earnings_inverse (df : List Transaction) :
    (calculate_metrics df).avg_monthly_earnings *
        ((max (calculate_metrics df).months_invested 1 : ℤ) : ℚ) =
      (calculate_metrics df).total_earnings := by
  cases df with
  | nil => norm_num [calculate_metrics]
  | cons r rs =>
    rw [cm_avg _ (List.cons_ne_nil r rs)]
    have hmax : ((max (calculate_metrics (r :: rs)).months_invested 1 : ℤ) : ℚ) ≠ 0 := by
      have h1 : (1 : ℤ) ≤ max (calculate_metrics (r :: rs)).months_invested 1 :=
        le_max_right _ _
      intro hc
      rw [Int.cast_eq_zero] at hc
      omega
    exact div_mul_cancel₀ _ hmax

/-- C8: concrete scenario A — two rows (2024-01-01, 1000, 1000) and
(2024-06-01, 500, 1800) — produces exactly the Metrics Record
(1500, 1800, 300, 60, 5). -/
theorem scenarioA_metrics : calculate_metrics scenarioA = ⟨1500, 1800, 300, 60, 5⟩ := by
  norm_num [calculate_metrics, scenarioA, rowJan, rowJun, datesMin, datesMax,
    monthsBetween, min_def, max_def, Date.le_iff]

theorem cm_ti_nonneg (df : List Transaction) (hinv : ∀ r ∈ df, 0 ≤ r.investment) :
    0 ≤ (calculate_metrics df).total_invested := by
  rw [cm_total_invested]
  apply List.sum_nonneg
  intro x hx
  rcases List.mem_map.mp hx with ⟨r, hr, hmap⟩
  exact hmap ▸ hinv r hr

theorem cm_te_pos_of_avg_pos (df : List Transaction)
    (havg : 0 < (calculate_metrics df).avg_monthly_earnings) :
    0 < (calculate_metrics df).total_earnings := by
  rcases df with _ | ⟨r, rs⟩
  · rw [cm_avg_nil] at havg
    exact absurd havg (lt_irrefl 0)
  · rw [cm_avg _ (List.cons_ne_nil r rs)] at havg
    have hcpos : (0 : ℚ) <
        ((max (calculate_metrics (r :: rs)).months_invested 1 : ℤ) : ℚ) := by
      have h1 : (0 : ℤ) < max (calculate_metrics (r :: rs)).months_invested 1 := by omega
      exact_mod_cast h1
    rcases div_pos_iff.mp havg with ⟨h1, _⟩ | ⟨_, h2⟩
    · exact h1
    · linarith

theorem cm_cb_pos (df : List Transaction) (hinv : ∀ r ∈ df, 0 ≤ r.investment)
    (havg : 0 < (calculate_metrics df).avg_monthly_earnings) :
    0 < (calculate_metrics df).current_balance := by
  have hti := cm_ti_nonneg df hinv
  have hte := cm_te_pos_of_avg_pos df havg
  have h3 := cm_total_earnings df
  linarith

theorem projBlock_isSome (m : Metrics)
    (h : 0 < m.avg_monthly_earnings → 0 < m.current_balance) :
    (projBlock m).isSome := by
  simp only [projBlock]
  split
  · rename_i hgate
    have hcb : 0 < m.current_balance := h hgate.2
    have hdiv : 0 < m.avg_monthly_earnings / m.current_balance := div_pos hgate.2 hcb
    rw [if_neg (ne_of_gt hcb)]
    rw [if_neg (by linarith :
      ¬ (1 + m.avg_monthly_earnings / m.current_balance ≤ 0))]
    rw [if_neg (by intro hc; linarith :
      ¬ (1 + m.avg_monthly_earnings / m.current_balance = 1))]
    rfl
  · rfl

/-- C10: whenever every Investment is nonnegative and the projection gate
`avg_monthly_earnings > 0` holds for the derived metrics, the balance
divided by is strictly positive and the logarithm argument
`1 + avg_monthly_earnings / current_balance` is strictly greater than 1,
so the doubling-time block cannot hit a domain error. -/
theorem projection_gate_positive_balance (df : List Transaction)
    (hinv : ∀ r ∈ df, 0 ≤ r.investment)
    (havg : 0 < (calculate_metrics df).avg_monthly_earnings) :
    0 < (calculate_metrics df).current_balance ∧
    1 < 1 + (calculate_metrics df).avg_monthly_earnings /
        (calculate_metrics df).current_balance ∧
    (projBlock (calculate_metrics df)).isSome := by
  have hcb := cm_cb_pos df hinv havg
  refine ⟨hcb, ?_, projBlock_isSome _ (fun _ => hcb)⟩
  have hdiv : 0 < (calculate_metrics df).avg_monthly_earnings /
      (calculate_metrics df).current_balance := div_pos havg hcb
  linarith

theorem projection_gate_positive_balance_witness :
    0 < (calculate_metrics earningTable).current_balance ∧
    1 < 1 + (calculate_metrics earningTable).avg_monthly_earnings /
        (calculate_metrics earningTable).current_balance ∧
    (projBlock (calculate_metrics earningTable)).isSome :=
  projection_gate_positive_balance earningTable (by decide)
    (by norm_num [calculate_metrics, earningTable, datesMin, datesMax, monthsBetween,
      min_def, max_def, Date.le_iff])

theorem growthBlock_isSome (df : List Transaction)
    (h : ∀ r ∈ df, r.totalBalance ≠ 0) : (growthBlock df).isSome := by
  simp only [growthBlock]
  split
  · split
    · rename_i first_row last_row hh hl
      split
      · split
        · rw [if_neg ?hfb]
          · rfl
          · have hmem : first_row ∈ sortByDate df :=
              List.mem_of_mem_head? (by rw [hh]; rfl)
            exact h first_row ((List.perm_insertionSort _ df).mem_iff.mp hmem)
        · rfl
      · rfl
    · rfl
  · rfl


theorem monthBlock_isSome (df : List Transaction) (now : Date)
    (h : ∀ r ∈ df, r.totalBalance ≠ 0) : (monthBlock df now).isSome := by
  simp only [monthBlock]
  repeat' split
  all_goals try rfl
  all_goals
    rename_i prev_row cur_row heq1 heq2 hzero
    exact absurd hzero
      (h prev_row (List.mem_of_mem_filter (List.mem_of_mem_getLast? heq1)))

/-- C2 (amended): for a table conforming to the data model with the
strengthened precondition that every Total Balance is strictly positive
(rather than merely nonnegative), `generate_local_insights` applied to the
table and its derived metrics hits no arithmetic domain error: every
division has a nonzero denominator and every logarithm argument is
positive, so the function returns normally. With balances only `≥ 0` the
claim fails — see the counterexample, where the growth-rate division by
the chronologically first balance divides by zero. -/
theorem insights_no_domain_error (df : List Transaction) (now : Date)
    (h : ∀ r ∈ df, r.date.Valid ∧ 0 ≤ r.investment ∧ 0 < r.totalBalance) :
    (generate_local_insights df (calculate_metrics df) now).isSome := by
  have hbal : ∀ r ∈ df, r.totalBalance ≠ 0 := fun r hr => ne_of_gt (h r hr).2.2
  have hg := growthBlock_isSome df hbal
  have hp := projBlock_isSome (calculate_metrics df)
    (fun havg => cm_cb_pos df (fun r hr => (h r hr).2.1) havg)
  have hm := monthBlock_isSome df now hbal
  rcases Option.isSome_iff_exists.mp hg with ⟨g, hg'⟩
  rcases Option.isSome_iff_exists.mp hp with ⟨p, hp'⟩
  rcases Option.isSome_iff_exists.mp hm with ⟨mo, hm'⟩
  simp [generate_local_insights, hg', hp', hm']

theorem insights_no_domain_error_witness :
    (generate_local_insights singleRowTable (calculate_metrics singleRowTable)
      nowDate).isSome :=
  insights_no_domain_error singleRowTable nowDate (by decide)

/-- C2 counterexample: `zeroBalTable` conforms to the data model (valid
dates, nonnegative investments and balances), yet the growth-trend block
divides the last balance by a first balance of 0, so the generator hits a
division by zero (result `none`). -/
theorem insights_domain_error_zero_balance :
    (∀ r ∈ zeroBalTable, r.date.Valid ∧ 0 ≤ r.investment ∧ 0 ≤ r.totalBalance) ∧
    generate_local_insights zeroBalTable (calculate_metrics zeroBalTable) nowDate = none := by
  refine ⟨by decide, ?_⟩
  have hgb : growthBlock zeroBalTable = none := by
    norm_num [growthBlock, sortByDate, List.insertionSort, List.orderedInsert,
      zeroBalTable, Date.le_iff, Date.toDays, monthsBetween]
  simp [generate_local_insights, hgb]

/-- C3 (amended): on the empty table with its all-zero metrics the
generator emits exactly one insight block — the unconditional
overall-performance statement in the flat tier with 0% returns — and all
four gated insights are absent; the output is not empty. -/
theorem insights_empty_table_one_block (now : Date) :
    generate_local_insights [] (calculate_metrics []) now =
      some [Insight.performance PerfTier.flat 0 0] := by
  rfl

/-- C3 counterexample: the empty table does not produce an empty insight
sequence — the unconditional performance insight is still emitted. -/
theorem insights_empty_table_not_nil :
    generate_local_insights [] (calculate_metrics []) nowDate ≠ some [] := by
  intro hc
  have h2 : generate_local_insights [] (calculate_metrics []) nowDate =
      some [Insight.performance PerfTier.flat 0 0] := rfl
  rw [h2] at hc
  simp at hc

theorem gen_eq_some_iff (df : List Transaction) (m : Metrics) (now : Date)
    (out : List Insight) :
    generate_local_insights df m now = some out ↔
      ∃ g p mo, growthBlock df = some g ∧ projBlock m = some p ∧
        monthBlock df now = some mo ∧
        out = perfBlock m ++ g ++ distBlock df m.total_invested ++ p ++ mo := by
  cases hg : growthBlock df with
  | none => simp [generate_local_insights, hg]
  | some g =>
    cases hp : projBlock m with
    | none => simp [generate_local_insights, hg, hp]
    | some p =>
      cases hm : monthBlock df now with
      | none => simp [generate_local_insights, hg, hp, hm]
      | some mo =>
        simp [generate_local_insights, hg, hp, hm]
        constructor
        · intro h
          exact h.symm
        · intro h
          exact h.symm

theorem perfBlock_shape (m : Metrics) :
    ∀ i ∈ perfBlock m, ∃ t roi ann, i = Insight.performance t roi ann := by
  intro i hi
  simp only [perfBlock, List.mem_singleton] at hi
  exact ⟨_, _, _, hi⟩

theorem growthBlock_shape (df : List Transaction) (g : List Insight)
    (h : growthBlock df = some g) :
    ∀ i ∈ g, ∃ t r, i = Insight.growth t r := by
  intro i hi
  simp only [growthBlock] at h
  repeat' split at h
  all_goals try contradiction
  all_goals try injection h with h
  all_goals subst h
  all_goals simp only [List.mem_singleton, List.not_mem_nil] at hi
  all_goals exact ⟨_, _, hi⟩

theorem projBlock_shape (m : Metrics) (p : List Insight)
    (h : projBlock m = some p) :
    ∀ i ∈ p, ∃ y, i = Insight.projection y := by
  intro i hi
  simp only [projBlock] at h
  repeat' split at h
  all_goals try contradiction
  all_goals try injection h with h
  all_goals subst h
  all_goals simp only [List.mem_singleton, List.not_mem_nil] at hi
  all_goals exact ⟨_, hi⟩

theorem monthBlock_shape (df : List Transaction) (now : Date) (mo : List Insight)
    (h : monthBlock df now = some mo) :
    ∀ i ∈ mo, ∃ t q n, i = Insight.monthPerf t q n := by
  intro i hi
  simp only [monthBlock] at h
  repeat' split at h
  all_goals try contradiction
  all_goals try injection h with h
  all_goals subst h
  all_goals simp only [List.mem_singleton, List.not_mem_nil] at hi
  all_goals exact ⟨_, _, _, hi⟩

theorem distBlock_emit (df : List Transaction) (ti : ℚ)
    (hlen : 1 < (accountDistribution df).length) :
    ∃ t a pc, distBlock df ti = [Insight.distribution t a pc] := by
  simp only [distBlock]
  rw [if_pos hlen]
  cases had : accountDistribution df with
  | nil => rw [had] at hlen; simp at hlen
  | cons q qs => exact ⟨_, _, _, rfl⟩

theorem distBlock_skip (df : List Transaction) (ti : ℚ)
    (hlen : ¬ 1 < (accountDistribution df).length) :
    distBlock df ti = [] := by
  simp only [distBlock]
  rw [if_neg hlen]

/-- C4 (amended): when the generator returns normally, the
account-concentration insight appears in the output iff more than one
distinct account type occurs among rows whose Account Type is a real label
— regardless of the sign of those rows' Investment. (The claim's extra
"Investment strictly positive" qualification is wrong: a type whose rows
all have zero Investment still registers in `account_distribution` with sum
0 and counts toward the gate; see the counterexample.) -/
theorem concentration_gate_iff (df : List Transaction) (m : Metrics) (now : Date)
    (out : List Insight) (h : generate_local_insights df m now = some out) :
    (∃ t a pc, Insight.distribution t a pc ∈ out) ↔
      1 < (accountDistribution df).length := by
  rcases (gen_eq_some_iff df m now out).mp h with ⟨g, p, mo, hg, hp, hm, hout⟩
  subst hout
  constructor
  · rintro ⟨t, a, pc, hmem⟩
    by_contra hlen
    rw [distBlock_skip df m.total_invested hlen] at hmem
    simp only [List.append_nil, List.mem_append] at hmem
    rcases hmem with ((h1 | h2) | h3) | h4
    · rcases perfBlock_shape m _ h1 with ⟨t2, r2, a2, he⟩
      simp at he
    · rcases growthBlock_shape df g hg _ h2 with ⟨t2, r2, he⟩
      simp at he
    · rcases projBlock_shape m p hp _ h3 with ⟨y2, he⟩
      simp at he
    · rcases monthBlock_shape df now mo hm _ h4 with ⟨t2, q2, n2, he⟩
      simp at he
  · intro hlen
    rcases distBlock_emit df m.total_invested hlen with ⟨t, a, pc, he⟩
    refine ⟨t, a, pc, ?_⟩
    rw [he]
    simp

theorem concentration_gate_iff_witness :
    (∃ t a pc, Insight.distribution t a pc ∈
        [Insight.performance PerfTier.flat 0 0,
         Insight.distribution DistTier.heavy "RSP" 100]) ↔
      1 < (accountDistribution mixedTypesTable).length :=
  concentration_gate_iff mixedTypesTable (calculate_metrics mixedTypesTable) nowDate
    [Insight.performance PerfTier.flat 0 0,
     Insight.distribution DistTier.heavy "RSP" 100]
    (by
      simp only [generate_local_insights, calculate_metrics, perfBlock, perfTier, growthBlock,
        distBlock, accountDistribution, bumpKey, maxBySnd, distTier, projBlock, monthBlock,
        monthTier, sortByDate, datesMin, datesMax, monthsBetween, min_def, max_def, Date.le_iff,
        mixedTypesTable, nowDate, String.reduceEq, List.foldl, List.filter, List.insertionSort,
        List.orderedInsert]
      norm_num [String.reduceEq])

/-- C4 counterexample: in `mixedTypesTable` only the "RSP" type has any
positive Investment — the mapping the claim describes (restricted to rows
with `Investment > 0`) has a single entry — yet the generator still emits
the concentration insight, because the zero-investment "TFSA" row also
registers its account type. -/
theorem concentration_gate_counterexample :
    accountDistributionSpec mixedTypesTable = [("RSP", 100)] ∧
    Insight.distribution DistTier.heavy "RSP" 100 ∈
      (generate_local_insights mixedTypesTable (calculate_metrics mixedTypesTable)
        nowDate).getD [] := by
  constructor
  · simp only [accountDistributionSpec, bumpKey, mixedTypesTable, String.reduceEq,
      List.foldl]
    norm_num
  · have h : generate_local_insights mixedTypesTable (calculate_metrics mixedTypesTable)
        nowDate =
        some [Insight.performance PerfTier.flat 0 0,
              Insight.distribution DistTier.heavy "RSP" 100] := by
      simp only [generate_local_insights, calculate_metrics, perfBlock, perfTier, growthBlock,
        distBlock, accountDistribution, bumpKey, maxBySnd, distTier, projBlock, monthBlock,
        monthTier, sortByDate, datesMin, datesMax, monthsBetween, min_def, max_def, Date.le_iff,
        mixedTypesTable, nowDate, String.reduceEq, List.foldl, List.filter, List.insertionSort,
        List.orderedInsert]
      norm_num [String.reduceEq]
    rw [h]
    simp
theorem growthRate_scenarioD_eq :
    growthRate 1000 1100 10 = ((11 / 10 : ℝ) ^ ((1 : ℝ) / 10) - 1) * 100 := by
  simp only [growthRate]
  norm_num

theorem growthRate_scenarioD_pos : 0 < growthRate 1000 1100 10 := by
  rw [growthRate_scenarioD_eq]
  have h1 : 1 < (11 / 10 : ℝ) ^ ((1 : ℝ) / 10) := by
    rw [Real.one_lt_rpow_iff_of_pos (by norm_num : (0:ℝ) < 11 / 10)]
    exact Or.inl ⟨by norm_num, by norm_num⟩
  linarith

theorem growthRate_scenarioD_le_one : growthRate 1000 1100 10 ≤ 1 := by
  rw [growthRate_scenarioD_eq]
  have hx0 : (0:ℝ) ≤ (11 / 10 : ℝ) ^ ((1 : ℝ) / 10) :=
    Real.rpow_nonneg (by norm_num) _
  have h10 : ((11 / 10 : ℝ) ^ ((1 : ℝ) / 10)) ^ (10 : ℕ) = 11 / 10 := by
    rw [← Real.rpow_natCast ((11 / 10 : ℝ) ^ ((1 : ℝ) / 10)) 10,
      ← Real.rpow_mul (by norm_num : (0:ℝ) ≤ 11 / 10)]
    norm_num
  have hcomp : ((11 / 10 : ℝ) ^ ((1 : ℝ) / 10)) ^ (10 : ℕ) ≤ (101 / 100 : ℝ) ^ (10 : ℕ) := by
    rw [h10]
    norm_num
  have hle : (11 / 10 : ℝ) ^ ((1 : ℝ) / 10) ≤ 101 / 100 :=
    (pow_le_pow_iff_left₀ hx0 (by norm_num) (by norm_num)).mp hcomp
  linarith

theorem growthTier_scenarioD : growthTier (growthRate 1000 1100 10) = GrowthTier.steady := by
  have h1 := growthRate_scenarioD_pos
  have h2 := growthRate_scenarioD_le_one
  simp only [growthTier]
  rw [if_neg (by linarith), if_neg (by linarith), if_pos h1]

theorem distBlock_shape (df : List Transaction) (ti : ℚ) :
    ∀ i ∈ distBlock df ti, ∃ t a pc, i = Insight.distribution t a pc := by
  intro i hi
  by_cases hlen : 1 < (accountDistribution df).length
  · rcases distBlock_emit df ti hlen with ⟨t, a, pc, he⟩
    rw [he] at hi
    simp at hi
    exact ⟨_, _, _, hi⟩
  · rw [distBlock_skip df ti hlen] at hi
    simp at hi

theorem growthBlock_scenarioD (df : List Transaction) (f l : Transaction)
    (h3 : 3 ≤ df.length)
    (hf : (sortByDate df).head? = some f)
    (hl : (sortByDate df).getLast? = some l)
    (hfb : f.totalBalance = 1000) (hlb : l.totalBalance = 1100)
    (hspan : 30 ≤ l.date.toDays - f.date.toDays)
    (hmb : monthsBetween f.date l.date = 10) :
    growthBlock df = some [Insight.growth GrowthTier.steady (growthRate 1000 1100 10)] := by
  simp only [growthBlock]
  rw [if_pos h3, hf, hl]
  dsimp only
  rw [if_pos hspan, hmb, hfb, hlb]
  rw [if_pos (by norm_num : (0:ℤ) < 10)]
  rw [if_neg (by norm_num : ¬ (1000:ℚ) = 0)]
  rw [growthTier_scenarioD]

/-- C9: for every table and generation date passing the growth-trend gates
(at least 3 rows, span of at least 30 days, positive whole-month
difference, here fixed at 10) whose chronologically first Total Balance is
1000 and chronologically last is 1100, whenever the generator returns
normally its output contains the growth-trend insight with monthly rate
`(11/10)^(1/10) - 1` (as a percentage), classified "steady" — and no
growth-trend insight of any other tier (in particular not "solid"). -/
theorem growth_trend_scenarioD (df : List Transaction) (now : Date) (f l : Transaction)
    (h3 : 3 ≤ df.length)
    (hf : (sortByDate df).head? = some f)
    (hl : (sortByDate df).getLast? = some l)
    (hfb : f.totalBalance = 1000) (hlb : l.totalBalance = 1100)
    (hspan : 30 ≤ l.date.toDays - f.date.toDays)
    (hmb : monthsBetween f.date l.date = 10)
    (out : List Insight)
    (hout : generate_local_insights df (calculate_metrics df) now = some out) :
    Insight.growth GrowthTier.steady (growthRate 1000 1100 10) ∈ out ∧
    (∀ t r, Insight.growth t r ∈ out →
      t = GrowthTier.steady ∧ r = growthRate 1000 1100 10) ∧
    growthRate 1000 1100 10 = ((11 / 10 : ℝ) ^ ((1 : ℝ) / 10) - 1) * 100 := by
  have hgb := growthBlock_scenarioD df f l h3 hf hl hfb hlb hspan hmb
  rcases (gen_eq_some_iff df _ now out).mp hout with ⟨g, p, mo, hg, hp, hm, hout2⟩
  rw [hgb] at hg
  injection hg with hg2
  subst hg2
  subst hout2
  refine ⟨by simp, ?_, growthRate_scenarioD_eq⟩
  intro t r hmem
  simp only [List.mem_append] at hmem
  rcases hmem with (((h1 | h2) | h3') | h4) | h5
  · rcases perfBlock_shape _ _ h1 with ⟨t2, r2, a2, he⟩
    simp at he
  · simp only [List.mem_singleton] at h2
    injection h2 with ht hr
    exact ⟨ht, hr⟩
  · rcases distBlock_shape _ _ _ h3' with ⟨t2, a2, pc2, he⟩
    simp at he
  · rcases projBlock_shape _ p hp _ h4 with ⟨y2, he⟩
    simp at he
  · rcases monthBlock_shape _ now mo hm _ h5 with ⟨t2, q2, n2, he⟩
    simp at he

theorem growth_trend_scenarioD_witness :
    Insight.growth GrowthTier.steady (growthRate 1000 1100 10) ∈
      [Insight.performance PerfTier.flat 0 0,
       Insight.growth GrowthTier.steady (growthRate 1000 1100 10)] ∧
    (∀ t r, Insight.growth t r ∈
        [Insight.performance PerfTier.flat 0 0,
         Insight.growth GrowthTier.steady (growthRate 1000 1100 10)] →
      t = GrowthTier.steady ∧ r = growthRate 1000 1100 10) ∧
    growthRate 1000 1100 10 = ((11 / 10 : ℝ) ^ ((1 : ℝ) / 10) - 1) * 100 :=
  growth_trend_scenarioD growthTable nowDate
    ⟨⟨2024, 1, 15⟩, 500, 1000, some "-", ""⟩ ⟨⟨2024, 11, 15⟩, 200, 1100, some "-", ""⟩
    (by norm_num [growthTable]) rfl rfl rfl rfl (by decide) (by decide)
    [Insight.performance PerfTier.flat 0 0,
     Insight.growth GrowthTier.steady (growthRate 1000 1100 10)]
    (by
      have hgb := growthBlock_scenarioD growthTable
        ⟨⟨2024, 1, 15⟩, 500, 1000, some "-", ""⟩ ⟨⟨2024, 11, 15⟩, 200, 1100, some "-", ""⟩
        (by norm_num [growthTable]) rfl rfl rfl rfl (by decide) (by decide)
      simp only [generate_local_insights, hgb, Option.some_bind]
      simp only [calculate_metrics, perfBlock, perfTier, distBlock, accountDistribution,
        bumpKey, maxBySnd, projBlock, monthBlock, monthTier, growthTable, nowDate,
        String.reduceEq, List.foldl, List.filter, datesMin, datesMax, monthsBetween,
        min_def, max_def, Date.le_iff]
      norm_num [String.reduceEq])

theorem insights_empty_table_one_block_witness :
    generate_local_insights [] (calculate_metrics []) nowDate =
      some [Insight.performance PerfTier.flat 0 0] :=
  insights_empty_table_one_block nowDate

theorem avg_monthly_earnings_inverse_witness :
    (calculate_metrics scenarioA).avg_monthly_earnings *
        ((max (calculate_metrics scenarioA).months_invested 1 : ℤ) : ℚ) =
      (calculate_metrics scenarioA).total_earnings :=
  avg_monthly_earnings_inverse scenarioA
